import Mathlib

/-!
Shallow embedding of the NiceHash Remote Homey app (TypeScript) and proofs about
its specification claims.

Embedded components:
* `getAuthHeader` / `apiCall` — the request signer and the authenticated API
  client (`nicehash/api.ts`).  The HMAC-SHA256 hex digest and the external
  serializers (`qs.stringify`, `JSON.stringify`, `qs.parse`-plus-spread-merge)
  are library calls outside the repository and are passed as function
  parameters; the embedding fixes everything the repository's own code does:
  field order, null-byte separators, truthiness guards, output shape.
* `syncRigDetails` — the per-tick autopilot handler of
  `drivers/nicehash-rig/device.ts`, split into the same stages the source has:
  device aggregation, profitability calculation, cumulative meters, and the
  autopilot decision block.
* `gatherDetails` — the dashboard aggregation of `drivers/dashboard/device.ts`.

Modelling conventions:
* JavaScript numbers are modelled as `ℚ`.  The source relies on ordinary
  finite-float arithmetic; the one place the embedding diverges from IEEE
  semantics is division by zero, which in `ℚ` yields `0` while JS yields a
  non-finite value.  Where that matters (the dashboard's unguarded division)
  the embedding uses `Option ℚ` with `none` standing for the non-finite
  result; elsewhere theorems carry a positivity hypothesis on the exchange
  rate, matching the values the ticker actually delivers.
* JS truthiness is modelled explicitly: a number is falsy iff it is `0`
  (`null`/`undefined` inputs are folded into the same falsy case), a string is
  falsy iff empty, objects are always truthy.
* `Math.round` is `⌊x + 1/2⌋` for all finite arguments, which is exactly the
  JS behaviour (ties go toward +∞, also for negative arguments).
* Homey capability writes that merely mirror store values (display rounding)
  are not tracked; persisted store values, device state fields, and the
  start/stop commands sent to the NiceHash API are.  The `rig_status_changed`
  flow trigger and log output are likewise display-only and not tracked.
* The legacy algorithm-label accumulator is kept as a list of titles; the
  source builds a comma-joined display string guarded by a substring check.
  No claim depends on the label text.
-/

/-- JS `Math.round` on finite doubles: round half toward positive infinity. -/
def jsRound (q : ℚ) : ℤ := ⌊q + 1/2⌋

/-- The source's `smartMagicNumber` instance field: 7 (minutes for the
benchmark window, hours for the forced-rebenchmark timeout, and the EMA
smoothing constant). -/
def smartMagicNumber : ℚ := 7

/-! ## Request signer (`getAuthHeader` in `nicehash/api.ts`) -/

/-- The single null byte used as field separator in the signed message. -/
def nullByte : String := "\x00"

/-- State of the incremental HMAC computation: the concatenation of all chunks
fed to `hmac.update` so far. -/
structure HmacState where
  acc : String

/-- One `hmac.update(s)` call: append the chunk to the message. -/
def hmacUpdate (h : HmacState) (s : String) : HmacState := ⟨h.acc ++ s⟩

/-- A request `query` or `body` value as the source receives it: either a
string used as-is or an object (of caller-chosen type) run through the
external serializer. -/
abbrev ReqVal (A : Type) := Option (String ⊕ A)

/-- Embedding of `getAuthHeader(apiKey, apiSecret, time, nonce, organizationId,
request)`.  `hmacHexDigest key msg` abstracts
`CryptoJS.algo.HMAC(SHA256, key)` over `msg` followed by lowercase hex
encoding; `qsStringify` abstracts `qs.stringify`; `jsonStringify` abstracts
`JSON.stringify`.  Each `hmacUpdate` mirrors one `hmac.update` call of the
source, including the JS truthiness guards on `organizationId`,
`request.query` and `request.body`. -/
def getAuthHeader {Q B : Type} (hmacHexDigest : String → String → String)
    (qsStringify : Q → String) (jsonStringify : B → String)
    (apiKey apiSecret time nonce : String) (organizationId : String)
    (method path : String) (query : ReqVal Q) (body : ReqVal B) : String :=
  let h : HmacState := ⟨""⟩
  let h := hmacUpdate h apiKey
  let h := hmacUpdate h nullByte
  let h := hmacUpdate h time
  let h := hmacUpdate h nullByte
  let h := hmacUpdate h nonce
  let h := hmacUpdate h nullByte
  let h := hmacUpdate h nullByte
  let h := if organizationId = "" then h else hmacUpdate h organizationId
  let h := hmacUpdate h nullByte
  let h := hmacUpdate h nullByte
  let h := hmacUpdate h method
  let h := hmacUpdate h nullByte
  let h := hmacUpdate h path
  let h := hmacUpdate h nullByte
  let h := match query with
    | none => h
    | some (Sum.inl s) => if s = "" then h else hmacUpdate h s
    | some (Sum.inr q) => hmacUpdate h (qsStringify q)
  let h := match body with
    | none => h
    | some (Sum.inl s) => if s = "" then h else hmacUpdate (hmacUpdate h nullByte) s
    | some (Sum.inr b) => hmacUpdate (hmacUpdate h nullByte) (jsonStringify b)
  apiKey ++ ":" ++ hmacHexDigest apiSecret h.acc

/-- The query field of the canonical message: absent and empty-string queries
contribute nothing, object queries contribute their `qs.stringify` form. -/
def queryField {Q : Type} (qsStringify : Q → String) : ReqVal Q → String
  | none => ""
  | some (Sum.inl s) => s
  | some (Sum.inr q) => qsStringify q

/-- The optional body tail of the canonical message: a truthy body contributes
a null byte followed by its serialized form. -/
def bodyField {B : Type} (jsonStringify : B → String) : ReqVal B → String
  | none => ""
  | some (Sum.inl s) => if s = "" then "" else nullByte ++ s
  | some (Sum.inr b) => nullByte ++ jsonStringify b

/-- JS truthiness of a query/body value: present and not the empty string. -/
def reqValTruthy {A : Type} : ReqVal A → Bool
  | none => false
  | some (Sum.inl s) => s ≠ ""
  | some (Sum.inr _) => true

/-! ## Time-synced API client (`Api.apiCall` in `nicehash/api.ts`) -/

/-- Characters of the second field of `path.split('?')`: everything after the
first `?` up to the next `?`. -/
def takeUntilQ : List Char → List Char
  | [] => []
  | c :: cs => if c = '?' then [] else c :: takeUntilQ cs

/-- JS `path.split('?')` restricted to the two fields the source destructures:
the part before the first `?`, and (when a `?` occurs) the part between the
first and second `?`. -/
def splitQ : List Char → List Char × Option (List Char)
  | [] => ([], none)
  | c :: cs =>
    if c = '?' then ([], some (takeUntilQ cs))
    else
      let r := splitQ cs
      (c :: r.1, r.2)

/-- String form of `const [pathOnly, pathQuery] = path.split('?')`. -/
def pathParts (path : String) : String × Option String :=
  let r := splitQ path.data
  (String.mk r.1, r.2.map String.mk)

/-- The timestamp of `Api.apiCall`:
`(time || (+new Date() + this.localTimeDiff))`.  A supplied non-zero override
is used as-is; an absent (or zero, hence falsy) override falls back to local
time plus the stored clock offset. -/
def computeTimestamp (time : Option ℤ) (nowMs localTimeDiff : ℤ) : ℤ :=
  match time with
  | some t => if t = 0 then nowMs + localTimeDiff else t
  | none => nowMs + localTimeDiff

/-- The effective query of `Api.apiCall`: when the path embeds a (truthy)
query string, `{ ...qs.parse(pathQuery), ...query }` — abstracted as
`mergeQuery` — otherwise the explicit `query` argument unchanged. -/
def mergedQuery {Q : Type} (mergeQuery : String → ReqVal Q → ReqVal Q)
    (path : String) (query : ReqVal Q) : ReqVal Q :=
  match (pathParts path).2 with
  | some pq => if pq = "" then query else mergeQuery pq query
  | none => query

/-- The outbound HTTP request assembled by `Api.apiCall`: URI, method and the
authentication-relevant headers. -/
structure ApiRequest (Q B : Type) where
  uri : String
  method : String
  xTime : String
  xNonce : String
  xRequestId : String
  xOrganizationId : String
  xAuth : String
  sentQuery : ReqVal Q
  sentBody : ReqVal B

/-- Embedding of `Api.apiCall(method, path, { query, body, time })`.
`mergeQuery pq q` abstracts `{ ...qs.parse(pathQuery), ...query }`.  Fails
(as the source rejects the promise) when `getTime()` has not set
`localTimeDiff`. -/
def apiCall {Q B : Type} (hmacHexDigest : String → String → String)
    (qsStringify : Q → String) (jsonStringify : B → String)
    (mergeQuery : String → ReqVal Q → ReqVal Q)
    (host apiKey apiSecret orgId : String) (localTimeDiff : Option ℤ)
    (nowMs : ℤ) (nonce : String) (method path : String)
    (query : ReqVal Q) (body : ReqVal B) (time : Option ℤ) :
    Except String (ApiRequest Q B) :=
  match localTimeDiff with
  | none => Except.error "Get server time first .getTime()"
  | some diff =>
    let pathOnly := (pathParts path).1
    let query := mergedQuery mergeQuery path query
    let timestamp := computeTimestamp time nowMs diff
    Except.ok
      { uri := host ++ pathOnly
        method := method
        xTime := toString timestamp
        xNonce := nonce
        xRequestId := nonce
        xOrganizationId := orgId
        xAuth := getAuthHeader hmacHexDigest qsStringify jsonStringify apiKey
          apiSecret (toString timestamp) nonce orgId method pathOnly query body
        sentQuery := query
        sentBody := body }

/-! ## Rig telemetry payload (`/main/api/v2/mining/rig2/:id` response) -/

/-- One entry of a legacy device's `speeds` array (values already parsed as
numbers, as `Number.parseFloat` does in the source). -/
structure Speed where
  title : String
  speed : ℚ
  displaySuffix : String

/-- A legacy device of `details.devices`. -/
structure LegacyDevice where
  statusEnumName : String
  temperature : ℚ
  powerUsage : ℚ
  load : ℚ
  speeds : List Speed

/-- One entry of a v4 device's `mdv.algorithmsSpeed` array. -/
structure V4AlgoSpeed where
  algorithm : ℕ
  speed : ℚ

/-- One labelled key/value metric of a v4 device's `odv` array. -/
structure V4KeyPair where
  key : String
  value : ℚ

/-- A v4 device: `algorithmsSpeed` is `none` when `device.mdv` or
`device.mdv.algorithmsSpeed` is absent. -/
structure V4Device where
  algorithmsSpeed : Option (List V4AlgoSpeed)
  odv : List V4KeyPair

/-- The rig-details payload fields the tick handler reads.  `v4devices`
collapses `details.v4 && details.v4.devices`. -/
structure RigDetails where
  typ : Option String
  devices : Option (List LegacyDevice)
  hasV4Rigs : Bool
  v4devices : Option (List V4Device)
  profitability : ℚ

/-- The guard `!details.type || details.type === 'UNMANAGED'` (negated): a
payload is managed when its type is present, non-empty and not `UNMANAGED`. -/
def isManaged : Option String → Bool
  | none => false
  | some t => if t = "" ∨ t = "UNMANAGED" then false else true

/-! ## Device aggregation (`syncRigDetails`, telemetry normalization) -/

/-- Hash-rate normalization to MH, the `switch (speed.displaySuffix)` of the
source (the source divides by the literals `0.001` … `0.000000000001`, which
in exact arithmetic is the table's multiplication). -/
def normalizeSpeed (r : ℚ) : String → ℚ
  | "H" => r / 1000000
  | "kH" => r / 1000
  | "GH" => r / 0.001
  | "TH" => r / 0.000001
  | "PH" => r / 0.000000001
  | "EH" => r / 0.000000000001
  | _ => r

/-- Per-tick aggregates accumulated over the rig's devices. -/
structure Agg where
  temperature : ℚ
  powerUsage : ℚ
  load : ℚ
  hashrate : ℚ
  mining : ℕ
  algos : List String

/-- Processing of one legacy `speeds` entry: record the algorithm title (the
source dedups against the display string) and add the normalized rate. -/
def addSpeed (a : Agg) (s : Speed) : Agg :=
  let a := if s.title ∈ a.algos then a else { a with algos := a.algos ++ [s.title] }
  { a with hashrate := a.hashrate + normalizeSpeed s.speed s.displaySuffix }

/-- Processing of one legacy device: `DISABLED`/`OFFLINE` devices are skipped
entirely; others contribute temperature, power and load; only `MINING` devices
are counted and contribute speeds. -/
def legacyStep (a : Agg) (d : LegacyDevice) : Agg :=
  if d.statusEnumName = "DISABLED" ∨ d.statusEnumName = "OFFLINE" then a
  else
    let a := { a with
      temperature := max a.temperature d.temperature
      powerUsage := a.powerUsage + d.powerUsage
      load := a.load + d.load }
    if d.statusEnumName ≠ "MINING" then a
    else d.speeds.foldl addSpeed { a with mining := a.mining + 1 }

/-- Processing of one v4 `algorithmsSpeed` entry: look the title up in the
hourly algorithm table, normalize `speed` from H to MH, and count the entry as
a mining device when its rate is positive. -/
def v4AlgoStep (table : ℕ → Option String) (a : Agg) (s : V4AlgoSpeed) : Agg :=
  let a := match table s.algorithm with
    | some t => { a with algos := a.algos ++ [t] }
    | none => a
  let r := s.speed / 1000000
  let a := if 0 < r then { a with mining := a.mining + 1 } else a
  { a with hashrate := a.hashrate + r }

/-- Processing of one v4 `odv` key/value metric. -/
def v4OdvStep (a : Agg) (kp : V4KeyPair) : Agg :=
  let a := if kp.key = "Power usage" then { a with powerUsage := a.powerUsage + kp.value } else a
  let a := if kp.key = "Temperature" then { a with temperature := max a.temperature kp.value } else a
  if kp.key = "Load" then { a with load := a.load + kp.value } else a

/-- Processing of one v4 device: algorithm speeds (when present), then the
labelled metrics.  Note the source applies no status filter to v4 devices. -/
def v4Step (table : ℕ → Option String) (a : Agg) (d : V4Device) : Agg :=
  let a := match d.algorithmsSpeed with
    | some ss => ss.foldl (v4AlgoStep table) a
    | none => a
  d.odv.foldl v4OdvStep a

/-- The full aggregation pass of `syncRigDetails`: legacy devices first, then
(when `hasV4Rigs` and the v4 device list are present) the v4 devices. -/
def aggregate (table : ℕ → Option String) (details : RigDetails) : Agg :=
  let a : Agg := ⟨0, 0, 0, 0, 0, []⟩
  let a := match details.devices with
    | some ds => ds.foldl legacyStep a
    | none => a
  if details.hasV4Rigs then
    match details.v4devices with
    | some vs => vs.foldl (v4Step table) a
    | none => a
  else a

/-! ## Profitability calculation and persistent data -/

/-- Outcome of the profitability block (`if (power_tariff && …)` /
`if (bitcoinRate)`).  `rateAvailable` records whether both the tariff was
truthy and the ticker had data; all numeric fields stay at their JS initial
value `0` otherwise. -/
structure ProfitCalc where
  costPerDay : ℚ
  mBTCRate : ℚ
  costPerDayMBTC : ℚ
  profitPct : ℚ
  profitabilityScarab : ℚ
  rateAvailable : Bool

/-- The profitability computation of `syncRigDetails` (source lines around the
`Calculate cost per day` comment).  `rate15m` is `getBitcoinRate(currency)`'s
`15m` field, `none` when the ticker has no data.  In the source
`costPerDay / mBTCRate` is IEEE division; the theorems that consume
`profitPct` assume a positive rate, which keeps `ℚ` and IEEE in agreement. -/
def profitCalc (power_tariff : ℚ) (rate15m : Option ℚ) (mining : ℕ)
    (powerUsage profitability : ℚ) : ProfitCalc :=
  if power_tariff ≠ 0 then
    match rate15m with
    | some rate =>
      let costPerDay := power_tariff * powerUsage / 1000 * 24
      let mBTCRate := rate / 1000
      let costPerDayMBTC := costPerDay / mBTCRate
      let profitPct :=
        if 0 < mining ∧ 0 < costPerDayMBTC then
          ((jsRound ((profitability * 1000 - costPerDayMBTC) / costPerDayMBTC * 100) : ℤ) : ℚ)
        else 0
      ⟨costPerDay, mBTCRate, costPerDayMBTC, profitPct, profitability * rate, true⟩
    | none => ⟨0, 0, 0, 0, 0, false⟩
  else ⟨0, 0, 0, 0, 0, false⟩

/-- The rig device's persisted store values (`getStoreValue`/`setStoreValue`).
All fields carry the JS default `0` for an absent value; `tariff_limit = 0`
models both `null` and a stored `0`, which the read below maps to `-1`
exactly as `getStoreValue('tariff_limit') || -1` does. -/
structure Store where
  tariff_limit : ℚ
  mining : ℚ
  hashrate : ℚ
  measure_power : ℚ
  measure_profit : ℚ
  measure_profit_scarab : ℚ
  measure_profit_percent : ℚ
  measure_cost : ℚ
  measure_cost_scarab : ℚ
  meter_power : ℚ
  meter_profit : ℚ
  meter_profit_scarab : ℚ
  meter_cost : ℚ
  meter_cost_scarab : ℚ

/-- The read `this.getStoreValue('tariff_limit') || -1`. -/
def readTariffLimit (store : Store) : ℚ :=
  if store.tariff_limit = 0 then -1 else store.tariff_limit

/-- The rig device's mutable instance fields that survive between ticks. -/
structure DeviceState where
  lastSync : ℚ
  lastMined : ℚ
  benchmarkStart : ℚ
  rollingProfit : ℚ

/-- A command sent to the NiceHash API by the tick
(`setRigStatus(id, true/false)`). -/
inductive RigCommand where
  | start
  | stop
deriving DecidableEq

/-- Everything observable a tick produces: new instance fields, new store,
and the commands issued. -/
structure TickResult where
  state : DeviceState
  store : Store
  commands : List RigCommand

/-- The per-tick inputs of `syncRigDetails`: fetched details, Homey settings,
capability values, the algorithm lookup table and the wall clock. -/
structure TickInput where
  details : Option RigDetails
  power_tariff : ℚ
  smart_mode : Bool
  smart_mode_min_profitability : ℚ
  bitcoinRate15m : Option ℚ
  algoTable : ℕ → Option String
  now : ℚ

/-! ## Autopilot decision logic -/

/-- The rolling-average step inside `if (hashrate)`: the first reading of a
benchmark window seeds the average with the tick's profit percentage, later
readings apply the EMA
`rollingProfit * ((magic - 1)/magic) + profitPct * (1/magic)`. -/
def updateRollingProfit (benchmarkStart rollingProfit profitPct : ℚ) : ℚ :=
  if benchmarkStart = 0 then profitPct
  else rollingProfit * ((smartMagicNumber - 1) / smartMagicNumber)
    + profitPct * (1 / smartMagicNumber)

/-- Outcome of the decision block: updated benchmark window and rolling
average, an optional write to the `tariff_limit` store, and the commands. -/
structure DecisionOut where
  benchmarkStart : ℚ
  rollingProfit : ℚ
  setTariffLimit : Option ℚ
  commands : List RigCommand

/-- The autopilot decision block of `syncRigDetails` (everything inside
`if (this.lastSync > 0)` after the meter updates).  Mirrors the source: no
assessment without a previous sync or without a hashrate; the benchmark
window must be older than `smartMagicNumber` minutes; the stop branch records
the current tariff as limit (even with autopilot off) and stops the rig only
when autopilot is on; the profitable branch raises the limit when the current
tariff exceeds it. -/
def autopilotDecision (now minProf : ℚ) (smart : Bool)
    (power_tariff tariff_limit : ℚ)
    (benchStart rolling profitPct lastSync hashrate : ℚ) : DecisionOut :=
  if 0 < lastSync ∧ hashrate ≠ 0 then
    let bench := if benchStart = 0 then now else benchStart
    let rolling2 := updateRollingProfit benchStart rolling profitPct
    if 0 < bench ∧ smartMagicNumber * 60000 < now - bench then
      if rolling2 < minProf ∧ profitPct < minProf then
        ⟨bench, rolling2, some power_tariff, if smart then [RigCommand.stop] else []⟩
      else if tariff_limit < power_tariff then ⟨bench, rolling2, some power_tariff, []⟩
      else ⟨bench, rolling2, none, []⟩
    else ⟨bench, rolling2, none, []⟩
  else ⟨benchStart, rolling, none, []⟩

/-- The idle branch (`mining === 0`): zero the instantaneous stores, reset the
benchmark state, set `lastSync` to `0`, and issue a start command when
autopilot is on and the limit is unlearned, the tariff is below the limit, the
rig has never mined, or it has not mined for `smartMagicNumber` hours. -/
def idleBranch (inp : TickInput) (st : DeviceState) (store : Store)
    (tariff_limit : ℚ) : TickResult :=
  let store := { store with
    mining := 0
    measure_profit := 0
    measure_profit_scarab := 0
    measure_profit_percent := 0
    measure_cost := 0
    measure_cost_scarab := 0 }
  let st := { st with lastSync := 0, benchmarkStart := 0, rollingProfit := 0 }
  if inp.smart_mode
      ∧ (tariff_limit = -1 ∨ inp.power_tariff < tariff_limit
        ∨ st.lastMined = 0
        ∨ (st.lastMined ≠ 0 ∧ 1000 * 60 * 60 * smartMagicNumber < inp.now - st.lastMined)) then
    ⟨st, store, [RigCommand.start]⟩
  else
    ⟨st, store, []⟩

/-- Store writes of the profitability block (`measure_profit_scarab`,
`measure_cost_scarab`, `measure_cost`, and — only when mining with a positive
cost basis — `measure_profit_percent`). -/
def applyProfitStores (store : Store) (pc : ProfitCalc) (mining : ℕ) : Store :=
  if pc.rateAvailable then
    let store := if 0 < mining then { store with measure_profit_scarab := pc.profitabilityScarab } else store
    let store := { store with measure_cost_scarab := pc.costPerDay, measure_cost := pc.costPerDayMBTC }
    if 0 < mining ∧ 0 < pc.costPerDayMBTC then { store with measure_profit_percent := pc.profitPct }
    else store
  else store

/-- The cumulative-meter block (`if (this.lastSync > 0)`): integrate power,
revenue and cost over the elapsed time, with the scarab (local-currency)
mirrors written only when the mBTC rate is truthy. -/
def applyMeters (store : Store) (pc : ProfitCalc)
    (powerUsage profitability elapsedMs : ℚ) : Store :=
  let store := { store with
    meter_power := store.meter_power + (powerUsage / 1000) * (elapsedMs / (1000 * 60 * 60)) }
  let store := { store with
    meter_profit := store.meter_profit + profitability * 1000 * (elapsedMs / 86400000) }
  let store := if pc.mBTCRate ≠ 0 then
      { store with meter_profit_scarab := store.meter_profit * pc.mBTCRate }
    else store
  let store := { store with
    meter_cost := store.meter_cost + pc.costPerDayMBTC * (elapsedMs / 86400000) }
  if pc.mBTCRate ≠ 0 then { store with meter_cost_scarab := store.meter_cost * pc.mBTCRate }
  else store

/-- The mining branch of the tick (`mining > 0`): zero the profitability when
waiting for a job, record revenue and mining status, stamp `lastMined`, run
the profitability block, the meters, and the decision block, then stamp
`lastSync` with the tick's end time. -/
def miningBranch (inp : TickInput) (st : DeviceState) (store : Store)
    (tariff_limit : ℚ) (details : RigDetails) (agg : Agg) : TickResult :=
  let profitability := if agg.hashrate = 0 then 0 else details.profitability
  let store := { store with measure_profit := profitability * 1000, mining := 1 }
  let pc := profitCalc inp.power_tariff inp.bitcoinRate15m agg.mining agg.powerUsage profitability
  let store := applyProfitStores store pc agg.mining
  let store := if 0 < st.lastSync then
      applyMeters store pc agg.powerUsage profitability (inp.now - st.lastSync)
    else store
  let dec := autopilotDecision inp.now inp.smart_mode_min_profitability inp.smart_mode
    inp.power_tariff tariff_limit st.benchmarkStart st.rollingProfit pc.profitPct
    st.lastSync agg.hashrate
  let store := match dec.setTariffLimit with
    | some t => { store with tariff_limit := t }
    | none => store
  ⟨⟨inp.now, inp.now, dec.benchmarkStart, dec.rollingProfit⟩, store, dec.commands⟩

/-- Embedding of one `syncRigDetails` invocation.  A missing, type-less or
`UNMANAGED` payload returns early without touching state (the `NotManaged`
no-op); a payload without a devices block skips aggregation but still stamps
`lastSync`; otherwise the idle or mining branch runs. -/
def syncRigDetails (inp : TickInput) (st : DeviceState) (store : Store) : TickResult :=
  match inp.details with
  | none => ⟨st, store, []⟩
  | some details =>
    if isManaged details.typ then
      let tariff_limit := readTariffLimit store
      if details.devices.isSome || details.hasV4Rigs then
        let agg := aggregate inp.algoTable details
        let store := { store with hashrate := agg.hashrate, measure_power := agg.powerUsage }
        if agg.mining = 0 then idleBranch inp st store tariff_limit
        else miningBranch inp st store tariff_limit details agg
      else ⟨{ st with lastSync := inp.now }, store, []⟩
    else ⟨st, store, []⟩

/-- The reachability predicate of the stop branch: the tick fetched a managed
payload with a devices block, found the rig mining with a nonzero hashrate
after a completed previous tick, the benchmark window is over, and both the
updated rolling average and the instant profit are below the threshold. -/
def dualStopFired (inp : TickInput) (st : DeviceState) : Bool :=
  match inp.details with
  | none => false
  | some details =>
    if isManaged details.typ then
      if details.devices.isSome || details.hasV4Rigs then
        let agg := aggregate inp.algoTable details
        if agg.mining = 0 then false
        else
          let profitability := if agg.hashrate = 0 then 0 else details.profitability
          let pc := profitCalc inp.power_tariff inp.bitcoinRate15m agg.mining agg.powerUsage profitability
          if 0 < st.lastSync ∧ agg.hashrate ≠ 0 then
            let bench := if st.benchmarkStart = 0 then inp.now else st.benchmarkStart
            let rolling2 := updateRollingProfit st.benchmarkStart st.rollingProfit pc.profitPct
            decide ((0 < bench ∧ smartMagicNumber * 60000 < inp.now - bench)
              ∧ rolling2 < inp.smart_mode_min_profitability
              ∧ pc.profitPct < inp.smart_mode_min_profitability)
          else false
      else false
    else false

/-- The rolling average produced by feeding a constant profit percentage `p`
into the source's update on every tick of one benchmark window: the first
tick seeds (benchmark start `0`), later ticks apply the EMA step. -/
def rollingSeq (p : ℚ) : ℕ → ℚ
  | 0 => updateRollingProfit 0 0 p
  | n + 1 => updateRollingProfit 1 (rollingSeq p n) p

/-! ## Dashboard aggregation (`NiceHashDashboard.gatherDetails`) -/

/-- Display rounding `Math.round(x * 100) / 100`. -/
def round2 (q : ℚ) : ℚ := ((jsRound (q * 100) : ℤ) : ℚ) / 100

/-- Sum of one store metric over all paired rig devices
(`value += rig.getStoreValue(metric)`). -/
def sumStores (f : Store → ℚ) (rigs : List Store) : ℚ := (rigs.map f).sum

/-- The dashboard capability values written by one `gatherDetails` pass.
`measure_profit_percent` is `Option ℚ`: `none` models the non-finite double
(NaN or ±Infinity) JS produces when the summed cost is zero. -/
structure DashResult where
  measure_power : ℚ
  meter_power : ℚ
  measure_profit : ℚ
  measure_profit_scarab : ℚ
  meter_profit : ℚ
  meter_profit_scarab : ℚ
  measure_cost : ℚ
  measure_cost_scarab : ℚ
  meter_cost : ℚ
  meter_cost_scarab : ℚ
  hashrate : ℚ
  rigs_mining : ℚ
  rigs_total : ℕ
  measure_profit_percent : Option ℚ

/-- The fleet-wide profit percentage
`Math.round(((revenue - cost) / cost) * 100)` with JS division: non-finite
(`none`) exactly when the cost divisor is zero. -/
def dashProfitPct (revenue cost : ℚ) : Option ℚ :=
  if cost = 0 then none
  else some ((jsRound ((revenue - cost) / cost * 100) : ℤ) : ℚ)

/-- Embedding of `NiceHashDashboard.gatherDetails`: sum every metric over the
rig devices' stores, publish the rounded sums, and compute the fleet
profitability from the raw revenue and cost sums with no zero guard. -/
def gatherDetails (rigs : List Store) : DashResult :=
  let revenue := sumStores Store.measure_profit rigs
  let cost := sumStores Store.measure_cost rigs
  { measure_power := round2 (sumStores Store.measure_power rigs)
    meter_power := round2 (sumStores Store.meter_power rigs)
    measure_profit := round2 revenue
    measure_profit_scarab := round2 (sumStores Store.measure_profit_scarab rigs)
    meter_profit := round2 (sumStores Store.meter_profit rigs)
    meter_profit_scarab := round2 (sumStores Store.meter_profit_scarab rigs)
    measure_cost := round2 cost
    measure_cost_scarab := round2 (sumStores Store.measure_cost_scarab rigs)
    meter_cost := round2 (sumStores Store.meter_cost rigs)
    meter_cost_scarab := round2 (sumStores Store.meter_cost_scarab rigs)
    hashrate := round2 (sumStores Store.hashrate rigs)
    rigs_mining := sumStores Store.mining rigs
    rigs_total := rigs.length
    measure_profit_percent := dashProfitPct revenue cost }

/-! ## Derived counting functions and sample data used by the theorems -/

/-- Number of legacy devices the aggregation counts as mining: exactly those
with status `MINING` (their hashrate is irrelevant to the count). -/
def countLegacyMining (ds : List LegacyDevice) : ℕ :=
  ds.countP fun d => decide (d.statusEnumName = "MINING")

/-- Number of times the aggregation increments the mining count for a v4
device list: once per algorithm-speed entry with positive normalized rate (a
single device contributes once per such entry). -/
def countV4Positive (vs : List V4Device) : ℕ :=
  (vs.map fun d =>
    match d.algorithmsSpeed with
    | some ss => ss.countP fun s => decide (0 < s.speed / 1000000)
    | none => 0).sum

/-- An empty algorithm lookup table. -/
def noTable : ℕ → Option String := fun _ => none

/-- An all-zero (freshly initialized) rig store. -/
def zeroStore : Store := ⟨0, 0, 0, 0, 0, 0, 0, 0, 0, 0, 0, 0, 0, 0⟩

/-- A legacy device mining 100 MH at 1000 W. -/
def c2Dev : LegacyDevice := ⟨"MINING", 50, 1000, 50, [⟨"DAGGER", 100, "MH"⟩]⟩

/-- A managed payload with one mining legacy device and zero reported
profitability. -/
def c2Det : RigDetails := ⟨some "MANAGED", some [c2Dev], false, none, 0⟩

/-- A steady-state tick input: tariff 1, autopilot on, threshold 0, BTC rate
50000, well past the benchmark window. -/
def c2Inp : TickInput := ⟨some c2Det, 1, true, 0, some 50000, noTable, 500000⟩

/-- Device state deep in an unprofitable benchmark run. -/
def c2St : DeviceState := ⟨5, 5, 1, -100⟩

/-- A legacy device with status `MINING` but no speed entries (waiting for a
job): it is counted as mining yet produces no hashrate. -/
def c2cDev : LegacyDevice := ⟨"MINING", 50, 1000, 50, []⟩

/-- A managed payload whose only device is mining with zero hashrate. -/
def c2cDet : RigDetails := ⟨some "MANAGED", some [c2cDev], false, none, 1⟩

/-- A steady-state tick input built on the zero-hashrate payload. -/
def c2cInp : TickInput := ⟨some c2cDet, 1, true, 0, some 50000, noTable, 500000⟩

/-- Device state for the zero-hashrate steady tick. -/
def c2cSt : DeviceState := ⟨5, 5, 1, -100⟩

/-- Device state at the first reading of a benchmark window. -/
def c3St : DeviceState := ⟨5, 5, 0, 0⟩

/-- Device state mid-window with rolling average 70. -/
def c3cSt : DeviceState := ⟨5, 5, 1, 70⟩

/-- Tick input with no fetched details (failed telemetry fetch). -/
def c5Inp : TickInput := ⟨none, 0, false, 0, none, noTable, 0⟩

/-- Fresh device state. -/
def c5St : DeviceState := ⟨0, 0, 0, 0⟩

/-- A managed payload with a devices block but no devices at all. -/
def c6Det : RigDetails := ⟨some "MANAGED", some [], false, none, 0⟩

/-- An idle tick input: autopilot on, tariff 1, 8h20m after the epoch. -/
def c6Inp : TickInput := ⟨some c6Det, 1, true, 0, none, noTable, 30000000⟩

/-- Device state that has never mined nor synced. -/
def c6St : DeviceState := ⟨0, 0, 0, 0⟩

/-- A payload whose only legacy device mines with empty speeds. -/
def c7DetLegacy : RigDetails := ⟨some "MANAGED", some [c2cDev], false, none, 0⟩

/-- A v4 device with two positive algorithm speeds and no labelled metrics. -/
def c7V4Dev : V4Device := ⟨some [⟨1, 5000000⟩, ⟨2, 7000000⟩], []⟩

/-- A payload with a single v4 device carrying two positive algorithm
speeds. -/
def c7DetV4 : RigDetails := ⟨some "MANAGED", none, true, some [c7V4Dev], 0⟩

/-- A disabled legacy device with nonzero metrics. -/
def c7Disabled : LegacyDevice := ⟨"DISABLED", 9, 9, 9, [⟨"X", 3, "MH"⟩]⟩

/-- An arbitrary nontrivial aggregate. -/
def c7Agg : Agg := ⟨1, 2, 3, 4, 5, ["x"]⟩

/-- A tick input with details that lack a type field, at a late wall clock. -/
def c9Inp : TickInput := ⟨some ⟨none, some [], false, none, 0⟩, 0, false, 0, none, noTable, 1000⟩

/-- Device state with an earlier completed sync at 42. -/
def c9St : DeviceState := ⟨42, 0, 0, 0⟩

/-- A rig store whose instantaneous cost is 3. -/
def c10StoreA : Store := ⟨0, 1, 100, 500, 5, 2, 0, 3, 0, 1, 1, 1, 1, 1⟩

/-- A rig store whose instantaneous cost is -3, cancelling the first. -/
def c10StoreB : Store := ⟨0, 0, 0, 0, 7, 0, 0, -3, 0, 0, 0, 0, 0, 0⟩

/-! ## Helper lemmas -/

theorem rollingSeq_const (p : ℚ) : ∀ n, rollingSeq p n = p := by
  intro n
  induction n with
  | zero => simp [rollingSeq, updateRollingProfit]
  | succ k ih =>
    simp only [rollingSeq, updateRollingProfit, ih, smartMagicNumber,
      if_neg (one_ne_zero (α := ℚ))]
    ring

theorem applyProfitStores_tariff_limit (store : Store) (pc : ProfitCalc) (m : ℕ) :
    (applyProfitStores store pc m).tariff_limit = store.tariff_limit := by
  simp only [applyProfitStores]
  split_ifs <;> rfl

theorem applyMeters_tariff_limit (store : Store) (pc : ProfitCalc) (pw pf el : ℚ) :
    (applyMeters store pc pw pf el).tariff_limit = store.tariff_limit := by
  simp only [applyMeters]
  split_ifs <;> rfl

theorem profitCalc_costPerDayMBTC_eq (t rate : ℚ) (m : ℕ) (pw pf : ℚ) (ht : t ≠ 0) :
    (profitCalc t (some rate) m pw pf).costPerDayMBTC
      = t * pw / 1000 * 24 / (rate / 1000) := by
  unfold profitCalc
  rw [if_pos ht]

theorem profitCalc_profitPct_eq (t rate : ℚ) (m : ℕ) (pw pf : ℚ) (ht : t ≠ 0) :
    (profitCalc t (some rate) m pw pf).profitPct
      = if 0 < m ∧ 0 < t * pw / 1000 * 24 / (rate / 1000) then
          ((jsRound ((pf * 1000 - t * pw / 1000 * 24 / (rate / 1000))
            / (t * pw / 1000 * 24 / (rate / 1000)) * 100) : ℤ) : ℚ)
        else 0 := by
  unfold profitCalc
  rw [if_pos ht]

/-! ## C4 — unit normalization table -/

/-- C4: for every hashrate reading, normalization to MH applies exactly the
table multipliers — `H` divides by 1 000 000, `kH` by 1 000, `MH` is
unchanged, `GH` multiplies by 1 000, `TH` by 1 000 000, `PH` by
1 000 000 000 and `EH` by 1 000 000 000 000; in particular 1 GH normalizes to
1000 MH and 1 TH to 1 000 000 MH. -/
theorem C4_unit_table (v : ℚ) :
    normalizeSpeed v "H" = v / 1000000
    ∧ normalizeSpeed v "kH" = v / 1000
    ∧ normalizeSpeed v "MH" = v
    ∧ normalizeSpeed v "GH" = v * 1000
    ∧ normalizeSpeed v "TH" = v * 1000000
    ∧ normalizeSpeed v "PH" = v * 1000000000
    ∧ normalizeSpeed v "EH" = v * 1000000000000
    ∧ normalizeSpeed (1 : ℚ) "GH" = 1000
    ∧ normalizeSpeed (1 : ℚ) "TH" = 1000000 := by
  refine ⟨rfl, rfl, rfl, ?_, ?_, ?_, ?_,
    by norm_num [normalizeSpeed], by norm_num [normalizeSpeed]⟩ <;>
  · show v / _ = _
    rw [div_eq_mul_inv]
    norm_num

/-! ## C1 — canonical signed message -/

/-- C1: `getAuthHeader` returns `apiKey ++ ":" ++` the hex HMAC-SHA256 (keyed
by `apiSecret`) of exactly
`apiKey \0 time \0 nonce \0 \0 orgId \0 \0 method \0 path \0 query`, followed
— only when a body is present (truthy) — by a null byte and the body, with
object queries serialized by `qs.stringify` and object bodies by
`JSON.stringify`.  As a Lean function it is pure and deterministic by
construction. -/
theorem C1_canonical_message {Q B : Type} (hmacHexDigest : String → String → String)
    (qsStringify : Q → String) (jsonStringify : B → String)
    (apiKey apiSecret time nonce organizationId method path : String)
    (query : ReqVal Q) (body : ReqVal B) :
    getAuthHeader hmacHexDigest qsStringify jsonStringify apiKey apiSecret time
        nonce organizationId method path query body
      = apiKey ++ ":" ++ hmacHexDigest apiSecret
          (apiKey ++ nullByte ++ time ++ nullByte ++ nonce ++ nullByte ++ nullByte
            ++ organizationId ++ nullByte ++ nullByte ++ method ++ nullByte ++ path
            ++ nullByte ++ queryField qsStringify query ++ bodyField jsonStringify body)
    ∧ (reqValTruthy body = true → body.isSome = true) := by
  constructor
  · rcases query with _ | sq
    case none =>
      rcases body with _ | sb
      case none =>
        by_cases horg : organizationId = "" <;>
          simp [getAuthHeader, hmacUpdate, queryField, bodyField, horg,
            String.append_assoc, String.empty_append, String.append_empty]
      case some =>
        rcases sb with t | b
        · by_cases horg : organizationId = "" <;> by_cases ht : t = "" <;>
            simp [getAuthHeader, hmacUpdate, queryField, bodyField, horg, ht,
              String.append_assoc, String.empty_append, String.append_empty]
        · by_cases horg : organizationId = "" <;>
            simp [getAuthHeader, hmacUpdate, queryField, bodyField, horg,
              String.append_assoc, String.empty_append, String.append_empty]
    case some =>
      rcases sq with s | q <;> rcases body with _ | sb
      · by_cases horg : organizationId = "" <;> by_cases hs : s = "" <;>
          simp [getAuthHeader, hmacUpdate, queryField, bodyField, horg, hs,
            String.append_assoc, String.empty_append, String.append_empty]
      · rcases sb with t | b
        · by_cases horg : organizationId = "" <;> by_cases hs : s = "" <;>
            by_cases ht : t = "" <;>
            simp [getAuthHeader, hmacUpdate, queryField, bodyField, horg, hs, ht,
              String.append_assoc, String.empty_append, String.append_empty]
        · by_cases horg : organizationId = "" <;> by_cases hs : s = "" <;>
            simp [getAuthHeader, hmacUpdate, queryField, bodyField, horg, hs,
              String.append_assoc, String.empty_append, String.append_empty]
      · by_cases horg : organizationId = "" <;>
          simp [getAuthHeader, hmacUpdate, queryField, bodyField, horg,
            String.append_assoc, String.empty_append, String.append_empty]
      · rcases sb with t | b
        · by_cases horg : organizationId = "" <;> by_cases ht : t = "" <;>
            simp [getAuthHeader, hmacUpdate, queryField, bodyField, horg, ht,
              String.append_assoc, String.empty_append, String.append_empty]
        · by_cases horg : organizationId = "" <;>
            simp [getAuthHeader, hmacUpdate, queryField, bodyField, horg,
              String.append_assoc, String.empty_append, String.append_empty]
  · rcases body with _ | sb <;> simp [reqValTruthy]

/-- Concrete instance of C1: with the digest function instantiated to return
its message, the signed message is visible byte-for-byte, and the truthy body
is present. -/
theorem C1_canonical_message_witness :
    getAuthHeader (fun _ m => m) (fun _ : Unit => "") (fun _ : Unit => "")
        "AK" "SEC" "123" "NONCE" "ORG" "GET" "/p" none (some (Sum.inl "BODY"))
      = "AK:AK\x00123\x00NONCE\x00\x00ORG\x00\x00GET\x00/p\x00\x00BODY"
    ∧ reqValTruthy (some (Sum.inl "BODY") : ReqVal Unit) = true
    ∧ (some (Sum.inl "BODY") : ReqVal Unit).isSome = true := by
  refine ⟨?_, rfl, ?_⟩
  · exact ((C1_canonical_message (fun _ m => m) (fun _ : Unit => "")
      (fun _ : Unit => "") "AK" "SEC" "123" "NONCE" "ORG" "GET" "/p" none
      (some (Sum.inl "BODY"))).1).trans (by decide)
  · exact (C1_canonical_message (fun _ m => m) (fun _ : Unit => "")
      (fun _ : Unit => "") "AK" "SEC" "123" "NONCE" "ORG" "GET" "/p" none
      (some (Sum.inl "BODY"))).2 rfl

/-! ## C8 — timestamp of authenticated calls -/

/-- C8 counterexample: with clock offset 100, local time 50 and a supplied
time override 5, the X-Time header carries "5" — the override is used as-is,
not `toString (5 + 100) = "105"` as the claim states. -/
theorem C8_counterexample :
    ((apiCall (fun _ m => m) (fun _ : Unit => "") (fun _ : Unit => "")
        (fun _ q => q) "h" "k" "s" "o" (some 100) 50 "n" "GET" "/p"
        none none (some 5)).toOption.map fun r => r.xTime) = some "5"
    ∧ toString ((5 : ℤ) + 100) ≠ "5" := by
  exact ⟨rfl, by decide⟩

/-- C8 amended: the timestamp placed in X-Time and passed to the signer is the
supplied non-zero `time` override used as-is (the clock offset is NOT added to
it); only when the override is absent or zero does the client use local time
plus the stored offset. -/
theorem C8_timestamp (hm : String → String → String)
    (qsS : Unit → String) (jsS : Unit → String)
    (merge : String → ReqVal Unit → ReqVal Unit)
    (host key secret org : String) (ltd : Option ℤ) (diff nowMs : ℤ)
    (nonce method path : String) (query : ReqVal Unit) (body : ReqVal Unit)
    (time : Option ℤ) (hsync : ltd = some diff) :
    ((apiCall hm qsS jsS merge host key secret org ltd nowMs nonce method path
        query body time).toOption.map fun r => (r.xTime, r.xAuth))
      = some (toString (computeTimestamp time nowMs diff),
          getAuthHeader hm qsS jsS key secret
            (toString (computeTimestamp time nowMs diff)) nonce org method
            (pathParts path).1 (mergedQuery merge path query) body)
    ∧ (∀ t : ℤ, t ≠ 0 → computeTimestamp (some t) nowMs diff = t)
    ∧ computeTimestamp none nowMs diff = nowMs + diff
    ∧ computeTimestamp (some 0) nowMs diff = nowMs + diff := by
  subst hsync
  refine ⟨rfl, ?_, rfl, rfl⟩
  intro t ht
  simp [computeTimestamp, ht]

/-- Concrete instance of C8 amended: a non-zero override of 5 is used
verbatim. -/
theorem C8_timestamp_witness : computeTimestamp (some 5) 50 100 = 5 :=
  (C8_timestamp (fun _ m => m) (fun _ => "") (fun _ => "") (fun _ q => q)
    "h" "k" "s" "o" (some 100) 100 50 "n" "GET" "/p" none none (some 5)
    rfl).2.1 5 (by decide)

/-! ## C10 — dashboard division without a zero guard -/

/-- C10: the dashboard computes the fleet profit percentage as
`round((revenue - cost) / cost * 100)` with no guard on the cost: whenever
the summed cost is zero the division yields a non-finite value (modelled
`none`) and it is still written to the `measure_profit_percent` capability —
unlike the per-rig computation, whose percentage is only produced when
`costPerDayMBTC > 0`. -/
theorem C10_dashboard_unguarded_division :
    (∀ rigs : List Store, sumStores Store.measure_cost rigs = 0 →
      (gatherDetails rigs).measure_profit_percent = none)
    ∧ (∀ (t : ℚ) (r : Option ℚ) (m : ℕ) (pw pf : ℚ),
        ¬ 0 < (profitCalc t r m pw pf).costPerDayMBTC →
        (profitCalc t r m pw pf).profitPct = 0) := by
  constructor
  · intro rigs h
    simp [gatherDetails, dashProfitPct, h]
  · intro t r m pw pf h
    by_cases ht : t = 0
    · simp [profitCalc, ht]
    · cases r with
      | none => simp [profitCalc, ht]
      | some rate =>
        rw [profitCalc_profitPct_eq t rate m pw pf ht, if_neg]
        rintro ⟨-, hc⟩
        rw [profitCalc_costPerDayMBTC_eq t rate m pw pf ht] at h
        exact h hc

/-- Concrete instance of C10: two rigs whose instantaneous costs (3 and -3)
sum to zero make the dashboard publish a non-finite profit percentage. -/
theorem C10_dashboard_unguarded_division_witness :
    sumStores Store.measure_cost [c10StoreA, c10StoreB] = 0
    ∧ (gatherDetails [c10StoreA, c10StoreB]).measure_profit_percent = none := by
  refine ⟨by norm_num [sumStores, c10StoreA, c10StoreB], ?_⟩
  exact C10_dashboard_unguarded_division.1 [c10StoreA, c10StoreB]
    (by norm_num [sumStores, c10StoreA, c10StoreB])

theorem syncRigDetails_eq_idle (inp : TickInput) (st : DeviceState) (store : Store)
    (d : RigDetails) (hdet : inp.details = some d) (hman : isManaged d.typ = true)
    (hdev : (d.devices.isSome || d.hasV4Rigs) = true)
    (hidle : (aggregate inp.algoTable d).mining = 0) :
    syncRigDetails inp st store
      = idleBranch inp st
          { store with
            hashrate := (aggregate inp.algoTable d).hashrate
            measure_power := (aggregate inp.algoTable d).powerUsage }
          (readTariffLimit store) := by
  unfold syncRigDetails
  rw [hdet]
  simp [hman, hdev, hidle]

theorem syncRigDetails_eq_mining (inp : TickInput) (st : DeviceState) (store : Store)
    (d : RigDetails) (hdet : inp.details = some d) (hman : isManaged d.typ = true)
    (hdev : (d.devices.isSome || d.hasV4Rigs) = true)
    (hmin : (aggregate inp.algoTable d).mining ≠ 0) :
    syncRigDetails inp st store
      = miningBranch inp st
          { store with
            hashrate := (aggregate inp.algoTable d).hashrate
            measure_power := (aggregate inp.algoTable d).powerUsage }
          (readTariffLimit store) d (aggregate inp.algoTable d) := by
  unfold syncRigDetails
  rw [hdet]
  simp [hman, hdev, hmin]

theorem miningBranch_commands (inp : TickInput) (st : DeviceState) (store : Store)
    (tl : ℚ) (d : RigDetails) (agg : Agg) :
    (miningBranch inp st store tl d agg).commands
      = (autopilotDecision inp.now inp.smart_mode_min_profitability inp.smart_mode
          inp.power_tariff tl st.benchmarkStart st.rollingProfit
          (profitCalc inp.power_tariff inp.bitcoinRate15m agg.mining agg.powerUsage
            (if agg.hashrate = 0 then 0 else d.profitability)).profitPct
          st.lastSync agg.hashrate).commands := rfl

theorem miningBranch_rollingProfit (inp : TickInput) (st : DeviceState) (store : Store)
    (tl : ℚ) (d : RigDetails) (agg : Agg) :
    (miningBranch inp st store tl d agg).state.rollingProfit
      = (autopilotDecision inp.now inp.smart_mode_min_profitability inp.smart_mode
          inp.power_tariff tl st.benchmarkStart st.rollingProfit
          (profitCalc inp.power_tariff inp.bitcoinRate15m agg.mining agg.powerUsage
            (if agg.hashrate = 0 then 0 else d.profitability)).profitPct
          st.lastSync agg.hashrate).rollingProfit := rfl

theorem miningBranch_lastSync (inp : TickInput) (st : DeviceState) (store : Store)
    (tl : ℚ) (d : RigDetails) (agg : Agg) :
    (miningBranch inp st store tl d agg).state.lastSync = inp.now := rfl

theorem idleBranch_lastSync (inp : TickInput) (st : DeviceState) (store : Store) (tl : ℚ) :
    (idleBranch inp st store tl).state.lastSync = 0 := by
  simp only [idleBranch]
  split_ifs <;> rfl

theorem idleBranch_commands (inp : TickInput) (st : DeviceState) (store : Store) (tl : ℚ) :
    (idleBranch inp st store tl).commands
      = if inp.smart_mode
            ∧ (tl = -1 ∨ inp.power_tariff < tl ∨ st.lastMined = 0
              ∨ (st.lastMined ≠ 0
                ∧ 1000 * 60 * 60 * smartMagicNumber < inp.now - st.lastMined)) then
          [RigCommand.start]
        else [] := by
  simp only [idleBranch]
  split_ifs <;> rfl

/-! ## C6 — idle-tick start condition -/

/-- C6: on an idle tick (mining count 0) a start command is issued exactly
when autopilot is enabled and the tariff limit is unlearned, or the current
tariff is below the learned limit, or the rig has not mined for more than 7
hours; in particular the 7-hour timeout starts the rig regardless of the
limit.  (Wall clocks are at least 7 hours past the epoch, which folds the
source's separate never-mined disjunct into the timeout.) -/
theorem C6_idle_start (inp : TickInput) (st : DeviceState) (store : Store) (d : RigDetails)
    (hdet : inp.details = some d) (hman : isManaged d.typ = true)
    (hdev : (d.devices.isSome || d.hasV4Rigs) = true)
    (hidle : (aggregate inp.algoTable d).mining = 0)
    (hnow : 1000 * 60 * 60 * smartMagicNumber < inp.now) :
    RigCommand.start ∈ (syncRigDetails inp st store).commands
      ↔ (inp.smart_mode = true
        ∧ (readTariffLimit store = -1
          ∨ inp.power_tariff < readTariffLimit store
          ∨ 1000 * 60 * 60 * smartMagicNumber < inp.now - st.lastMined)) := by
  rw [syncRigDetails_eq_idle inp st store d hdet hman hdev hidle,
    idleBranch_commands]
  have hequiv : (inp.smart_mode = true
        ∧ (readTariffLimit store = -1 ∨ inp.power_tariff < readTariffLimit store
          ∨ st.lastMined = 0
          ∨ (st.lastMined ≠ 0
            ∧ 1000 * 60 * 60 * smartMagicNumber < inp.now - st.lastMined)))
      ↔ (inp.smart_mode = true
        ∧ (readTariffLimit store = -1 ∨ inp.power_tariff < readTariffLimit store
          ∨ 1000 * 60 * 60 * smartMagicNumber < inp.now - st.lastMined)) := by
    constructor
    · rintro ⟨hs, h⟩
      refine ⟨hs, ?_⟩
      rcases h with h | h | h | ⟨-, ht⟩
      · exact Or.inl h
      · exact Or.inr (Or.inl h)
      · exact Or.inr (Or.inr (by rw [h, sub_zero]; exact hnow))
      · exact Or.inr (Or.inr ht)
    · rintro ⟨hs, h⟩
      refine ⟨hs, ?_⟩
      rcases h with h | h | ht
      · exact Or.inl h
      · exact Or.inr (Or.inl h)
      · by_cases h0 : st.lastMined = 0
        · exact Or.inr (Or.inr (Or.inl h0))
        · exact Or.inr (Or.inr (Or.inr ⟨h0, ht⟩))
  split_ifs with hcond
  · simp only [List.mem_singleton, true_iff]
    exact hequiv.mp hcond
  · simp only [List.not_mem_nil, false_iff]
    intro hclaim
    exact hcond (hequiv.mpr hclaim)

/-- Concrete instance of C6: a never-mined idle rig with autopilot on and no
learned limit receives a start command. -/
theorem C6_idle_start_witness :
    RigCommand.start ∈ (syncRigDetails c6Inp c6St zeroStore).commands := by
  refine (C6_idle_start c6Inp c6St zeroStore c6Det rfl (by decide) (by decide)
    rfl (by norm_num [smartMagicNumber, c6Inp])).mpr ?_
  exact ⟨rfl, Or.inl (by norm_num [readTariffLimit, zeroStore])⟩

/-! ## C9 — lastSync after a tick -/

/-- C9 counterexample: an idle tick at wall-clock 30000000 resets `lastSync`
to 0 instead of advancing it to the tick's end time, and a `NotManaged` tick
at wall-clock 1000 leaves a previous `lastSync` of 42 untouched. -/
theorem C9_counterexample :
    (syncRigDetails c6Inp c6St zeroStore).state.lastSync = 0
    ∧ c6Inp.now = 30000000 ∧ (0 : ℚ) ≠ 30000000
    ∧ (syncRigDetails c9Inp c9St zeroStore).state.lastSync = 42
    ∧ c9Inp.now = 1000 ∧ (42 : ℚ) ≠ 1000 := by
  refine ⟨?_, rfl, by norm_num, ?_, rfl, by norm_num⟩
  · rw [syncRigDetails_eq_idle c6Inp c6St zeroStore c6Det rfl (by decide)
      (by decide) rfl]
    exact idleBranch_lastSync ..
  · rfl

/-- C9 amended: `lastSync` is stamped with the tick's end time only on a
managed tick that either has no devices block or finds the rig mining; an
idle tick resets `lastSync` to 0, and a missing/NotManaged payload leaves it
unchanged. -/
theorem C9_lastSync_cases (inp : TickInput) (st : DeviceState) (store : Store) :
    (inp.details = none → (syncRigDetails inp st store).state.lastSync = st.lastSync)
    ∧ (∀ d, inp.details = some d → isManaged d.typ = false →
        (syncRigDetails inp st store).state.lastSync = st.lastSync)
    ∧ (∀ d, inp.details = some d → isManaged d.typ = true →
        (d.devices.isSome || d.hasV4Rigs) = true →
        (aggregate inp.algoTable d).mining = 0 →
        (syncRigDetails inp st store).state.lastSync = 0)
    ∧ (∀ d, inp.details = some d → isManaged d.typ = true →
        (d.devices.isSome || d.hasV4Rigs) = true →
        (aggregate inp.algoTable d).mining ≠ 0 →
        (syncRigDetails inp st store).state.lastSync = inp.now)
    ∧ (∀ d, inp.details = some d → isManaged d.typ = true →
        (d.devices.isSome || d.hasV4Rigs) = false →
        (syncRigDetails inp st store).state.lastSync = inp.now) := by
  refine ⟨?_, ?_, ?_, ?_, ?_⟩
  · intro h
    unfold syncRigDetails
    rw [h]
  · intro d hdet hman
    unfold syncRigDetails
    rw [hdet]
    simp [hman]
  · intro d hdet hman hdev hidle
    rw [syncRigDetails_eq_idle inp st store d hdet hman hdev hidle]
    exact idleBranch_lastSync ..
  · intro d hdet hman hdev hmin
    rw [syncRigDetails_eq_mining inp st store d hdet hman hdev hmin]
    exact miningBranch_lastSync ..
  · intro d hdet hman hdev
    unfold syncRigDetails
    rw [hdet]
    simp [hman, hdev]

/-- Concrete instance of C9 amended: the no-details tick keeps `lastSync` at
42 and the empty-devices idle tick resets it to 0. -/
theorem C9_lastSync_cases_witness :
    (syncRigDetails c5Inp c9St zeroStore).state.lastSync = 42
    ∧ (syncRigDetails c6Inp c6St zeroStore).state.lastSync = 0 := by
  constructor
  · exact ((C9_lastSync_cases c5Inp c9St zeroStore).1 rfl).trans rfl
  · exact (C9_lastSync_cases c6Inp c6St zeroStore).2.2.1 c6Det rfl (by decide)
      (by decide) rfl

/-! ## C2 — steady-state dual stop condition -/

/-- C2 amended: on a Steady tick (mining, benchmark window of 7 minutes
elapsed, a previous tick completed) with autopilot enabled, PROVIDED the tick
reports a nonzero aggregate hashrate, a stop command is issued iff both the
(updated) rolling average and the tick's instant profit percentage are
strictly below the threshold — so a single low reading never stops the rig.
Zero-hashrate (waiting-for-job) ticks skip the assessment entirely. -/
theorem C2_steady_stop_iff (inp : TickInput) (st : DeviceState) (store : Store)
    (d : RigDetails)
    (hdet : inp.details = some d) (hman : isManaged d.typ = true)
    (hdev : (d.devices.isSome || d.hasV4Rigs) = true)
    (hmin : (aggregate inp.algoTable d).mining ≠ 0)
    (hhash : (aggregate inp.algoTable d).hashrate ≠ 0)
    (hsync : 0 < st.lastSync)
    (hbench : 0 < st.benchmarkStart)
    (hwin : smartMagicNumber * 60000 < inp.now - st.benchmarkStart)
    (hsmart : inp.smart_mode = true)
    (hrate : inp.bitcoinRate15m = none ∨ ∃ r, inp.bitcoinRate15m = some r ∧ 0 < r) :
    RigCommand.stop ∈ (syncRigDetails inp st store).commands
      ↔ (updateRollingProfit st.benchmarkStart st.rollingProfit
            (profitCalc inp.power_tariff inp.bitcoinRate15m
              (aggregate inp.algoTable d).mining (aggregate inp.algoTable d).powerUsage
              d.profitability).profitPct < inp.smart_mode_min_profitability
        ∧ (profitCalc inp.power_tariff inp.bitcoinRate15m
            (aggregate inp.algoTable d).mining (aggregate inp.algoTable d).powerUsage
            d.profitability).profitPct < inp.smart_mode_min_profitability) := by
  rw [syncRigDetails_eq_mining inp st store d hdet hman hdev hmin,
    miningBranch_commands, if_neg hhash]
  simp only [autopilotDecision]
  rw [if_pos ⟨hsync, hhash⟩, if_neg hbench.ne', if_pos ⟨hbench, hwin⟩]
  by_cases hdual : updateRollingProfit st.benchmarkStart st.rollingProfit
        (profitCalc inp.power_tariff inp.bitcoinRate15m
          (aggregate inp.algoTable d).mining (aggregate inp.algoTable d).powerUsage
          d.profitability).profitPct < inp.smart_mode_min_profitability
      ∧ (profitCalc inp.power_tariff inp.bitcoinRate15m
          (aggregate inp.algoTable d).mining (aggregate inp.algoTable d).powerUsage
          d.profitability).profitPct < inp.smart_mode_min_profitability
  · rw [if_pos hdual]
    simp [hsmart, hdual]
  · rw [if_neg hdual]
    split_ifs <;> simp [hdual]

/-- Concrete instance of C2 amended: a steady unprofitable tick (instant and
rolling profit −100 % against threshold 0) issues the stop command. -/
theorem C2_steady_stop_iff_witness :
    RigCommand.stop ∈ (syncRigDetails c2Inp c2St zeroStore).commands := by
  refine (C2_steady_stop_iff c2Inp c2St zeroStore c2Det rfl (by decide) (by decide)
    (by decide)
    (by norm_num +decide [aggregate, legacyStep, addSpeed, normalizeSpeed, c2Inp, c2Det, c2Dev, noTable])
    (by norm_num [c2St]) (by norm_num [c2St])
    (by norm_num [smartMagicNumber, c2St, c2Inp])
    rfl (Or.inr ⟨50000, rfl, by norm_num⟩)).mpr ?_
  constructor <;>
    norm_num +decide [aggregate, legacyStep, addSpeed, normalizeSpeed, profitCalc,
      updateRollingProfit, jsRound, smartMagicNumber, c2Inp, c2Det, c2Dev, c2St, noTable]

/-- C2 counterexample: a Steady tick whose only device reports status MINING
with no speed entries — the rig is mining (count 1) past the benchmark
window, autopilot is on, and both the instant profit (−100 %) and the rolling
average are below the threshold 0, yet no command is issued because the
aggregate hashrate is zero. -/
theorem C2_counterexample :
    0 < (aggregate c2cInp.algoTable c2cDet).mining
    ∧ (aggregate c2cInp.algoTable c2cDet).hashrate = 0
    ∧ c2cInp.smart_mode = true
    ∧ 0 < c2cSt.benchmarkStart
    ∧ smartMagicNumber * 60000 < c2cInp.now - c2cSt.benchmarkStart
    ∧ (profitCalc c2cInp.power_tariff c2cInp.bitcoinRate15m
        (aggregate c2cInp.algoTable c2cDet).mining
        (aggregate c2cInp.algoTable c2cDet).powerUsage
        (if (aggregate c2cInp.algoTable c2cDet).hashrate = 0 then 0
          else c2cDet.profitability)).profitPct < c2cInp.smart_mode_min_profitability
    ∧ updateRollingProfit c2cSt.benchmarkStart c2cSt.rollingProfit
        (profitCalc c2cInp.power_tariff c2cInp.bitcoinRate15m
          (aggregate c2cInp.algoTable c2cDet).mining
          (aggregate c2cInp.algoTable c2cDet).powerUsage
          (if (aggregate c2cInp.algoTable c2cDet).hashrate = 0 then 0
            else c2cDet.profitability)).profitPct < c2cInp.smart_mode_min_profitability
    ∧ (syncRigDetails c2cInp c2cSt zeroStore).commands = [] := by
  refine ⟨?_, ?_, rfl, ?_, ?_, ?_, ?_, ?_⟩ <;>
    norm_num +decide [syncRigDetails, miningBranch, idleBranch, autopilotDecision,
      applyProfitStores, applyMeters, aggregate, legacyStep, addSpeed,
      normalizeSpeed, profitCalc, updateRollingProfit, readTariffLimit,
      isManaged, jsRound, smartMagicNumber, c2cInp, c2cDet, c2cDev, c2cSt,
      zeroStore, noTable]

/-! ## C3 — rolling profit average -/

/-- C3 amended: within a benchmark window the rolling average is seeded
exactly with the tick's profit percentage on the first reading
(`benchmarkStart = 0`) and updated by the EMA
`rolling * (6/7) + profitPct * (1/7)` on later readings — but only on ticks
whose aggregate hashrate is nonzero (and after a completed previous tick);
zero-hashrate ticks leave it unchanged.  Feeding a constant `p` yields
exactly `p` on every tick of the window, hence convergence to `p`. -/
theorem C3_rolling_average (inp : TickInput) (st : DeviceState) (store : Store)
    (d : RigDetails)
    (hdet : inp.details = some d) (hman : isManaged d.typ = true)
    (hdev : (d.devices.isSome || d.hasV4Rigs) = true)
    (hmin : (aggregate inp.algoTable d).mining ≠ 0)
    (hsync : 0 < st.lastSync)
    (hrate : inp.bitcoinRate15m = none ∨ ∃ r, inp.bitcoinRate15m = some r ∧ 0 < r) :
    ((aggregate inp.algoTable d).hashrate ≠ 0 → st.benchmarkStart = 0 →
      (syncRigDetails inp st store).state.rollingProfit
        = (profitCalc inp.power_tariff inp.bitcoinRate15m
            (aggregate inp.algoTable d).mining (aggregate inp.algoTable d).powerUsage
            d.profitability).profitPct)
    ∧ ((aggregate inp.algoTable d).hashrate ≠ 0 → st.benchmarkStart ≠ 0 →
      (syncRigDetails inp st store).state.rollingProfit
        = st.rollingProfit * ((smartMagicNumber - 1) / smartMagicNumber)
          + (profitCalc inp.power_tariff inp.bitcoinRate15m
              (aggregate inp.algoTable d).mining (aggregate inp.algoTable d).powerUsage
              d.profitability).profitPct * (1 / smartMagicNumber))
    ∧ ((aggregate inp.algoTable d).hashrate = 0 →
      (syncRigDetails inp st store).state.rollingProfit = st.rollingProfit)
    ∧ (∀ (p : ℚ) (n : ℕ), rollingSeq p n = p)
    ∧ (∀ p : ℚ, Filter.Tendsto (fun n : ℕ => ((rollingSeq p n : ℚ) : ℝ))
        Filter.atTop (nhds ((p : ℚ) : ℝ))) := by
  refine ⟨?_, ?_, ?_, rollingSeq_const, ?_⟩
  · intro hh h0
    rw [syncRigDetails_eq_mining inp st store d hdet hman hdev hmin,
      miningBranch_rollingProfit, if_neg hh]
    simp only [autopilotDecision]
    rw [if_pos ⟨hsync, hh⟩]
    have hup : updateRollingProfit st.benchmarkStart st.rollingProfit
        (profitCalc inp.power_tariff inp.bitcoinRate15m
          (aggregate inp.algoTable d).mining (aggregate inp.algoTable d).powerUsage
          d.profitability).profitPct
        = (profitCalc inp.power_tariff inp.bitcoinRate15m
            (aggregate inp.algoTable d).mining (aggregate inp.algoTable d).powerUsage
            d.profitability).profitPct := by
      rw [updateRollingProfit, if_pos h0]
    split_ifs <;> simp [hup]
  · intro hh h0
    rw [syncRigDetails_eq_mining inp st store d hdet hman hdev hmin,
      miningBranch_rollingProfit, if_neg hh]
    simp only [autopilotDecision]
    rw [if_pos ⟨hsync, hh⟩]
    have hup : updateRollingProfit st.benchmarkStart st.rollingProfit
        (profitCalc inp.power_tariff inp.bitcoinRate15m
          (aggregate inp.algoTable d).mining (aggregate inp.algoTable d).powerUsage
          d.profitability).profitPct
        = st.rollingProfit * ((smartMagicNumber - 1) / smartMagicNumber)
          + (profitCalc inp.power_tariff inp.bitcoinRate15m
              (aggregate inp.algoTable d).mining (aggregate inp.algoTable d).powerUsage
              d.profitability).profitPct * (1 / smartMagicNumber) := by
      rw [updateRollingProfit, if_neg h0]
    split_ifs <;> simp [hup]
  · intro hh
    rw [syncRigDetails_eq_mining inp st store d hdet hman hdev hmin,
      miningBranch_rollingProfit]
    simp only [autopilotDecision]
    rw [if_neg]
    rintro ⟨-, hcon⟩
    exact hcon hh
  · intro p
    have hconst : (fun n : ℕ => ((rollingSeq p n : ℚ) : ℝ)) = fun _ => ((p : ℚ) : ℝ) :=
      funext fun n => by rw [rollingSeq_const]
    rw [hconst]
    exact tendsto_const_nhds

/-- Concrete instance of C3 amended: the first reading of a window seeds the
rolling average with the tick's −100 % profit. -/
theorem C3_rolling_average_witness :
    (syncRigDetails c2Inp c3St zeroStore).state.rollingProfit = -100 := by
  have h := (C3_rolling_average c2Inp c3St zeroStore c2Det rfl (by decide) (by decide)
    (by decide) (by norm_num [c3St]) (Or.inr ⟨50000, rfl, by norm_num⟩)).1
    (by norm_num +decide [aggregate, legacyStep, addSpeed, normalizeSpeed,
      c2Inp, c2Det, c2Dev, noTable]) rfl
  rw [h]
  norm_num +decide [profitCalc, jsRound, aggregate, legacyStep, addSpeed,
    normalizeSpeed, c2Inp, c2Det, c2Dev, noTable]

/-- C3 counterexample: a subsequent mining tick (benchmark window already
open, mining count 1) with zero aggregate hashrate leaves the rolling average
at 70 instead of applying the claimed EMA update, whose value here would be
`70 * 6/7 + (−100) * 1/7 = 320/7`. -/
theorem C3_counterexample :
    0 < (aggregate c2cInp.algoTable c2cDet).mining
    ∧ c3cSt.benchmarkStart ≠ 0
    ∧ (syncRigDetails c2cInp c3cSt zeroStore).state.rollingProfit = 70
    ∧ c3cSt.rollingProfit * ((smartMagicNumber - 1) / smartMagicNumber)
        + (profitCalc c2cInp.power_tariff c2cInp.bitcoinRate15m
            (aggregate c2cInp.algoTable c2cDet).mining
            (aggregate c2cInp.algoTable c2cDet).powerUsage
            (if (aggregate c2cInp.algoTable c2cDet).hashrate = 0 then 0
              else c2cDet.profitability)).profitPct * (1 / smartMagicNumber)
        ≠ c3cSt.rollingProfit := by
  refine ⟨?_, ?_, ?_, ?_⟩ <;>
    norm_num +decide [syncRigDetails, miningBranch, idleBranch, autopilotDecision,
      applyProfitStores, applyMeters, aggregate, legacyStep, addSpeed,
      normalizeSpeed, profitCalc, updateRollingProfit, readTariffLimit,
      isManaged, jsRound, smartMagicNumber, c2cInp, c2cDet, c2cDev, c3cSt,
      zeroStore, noTable]

/-! ## C5 — monotonicity of the learned tariff limit -/

theorem idleBranch_tariff_limit (inp : TickInput) (st : DeviceState) (store : Store)
    (tl : ℚ) : (idleBranch inp st store tl).store.tariff_limit = store.tariff_limit := by
  simp only [idleBranch]
  split_ifs <;> rfl

theorem autopilotDecision_setTariffLimit (now minProf : ℚ) (smart : Bool)
    (tariff tl benchStart rolling pct lastSync hashrate : ℚ) :
    (autopilotDecision now minProf smart tariff tl benchStart rolling pct
        lastSync hashrate).setTariffLimit
      = if (0 < lastSync ∧ hashrate ≠ 0)
          ∧ (0 < (if benchStart = 0 then now else benchStart)
            ∧ smartMagicNumber * 60000
              < now - (if benchStart = 0 then now else benchStart))
          ∧ ((updateRollingProfit benchStart rolling pct < minProf ∧ pct < minProf)
            ∨ tl < tariff) then some tariff
        else none := by
  simp only [autopilotDecision]
  split_ifs <;> first | rfl | (exfalso; tauto)

theorem miningBranch_tariff_limit (inp : TickInput) (st : DeviceState) (store : Store)
    (tl : ℚ) (d : RigDetails) (agg : Agg) :
    (miningBranch inp st store tl d agg).store.tariff_limit
      = match (autopilotDecision inp.now inp.smart_mode_min_profitability inp.smart_mode
          inp.power_tariff tl st.benchmarkStart st.rollingProfit
          (profitCalc inp.power_tariff inp.bitcoinRate15m agg.mining agg.powerUsage
            (if agg.hashrate = 0 then 0 else d.profitability)).profitPct
          st.lastSync agg.hashrate).setTariffLimit with
        | some t => t
        | none => store.tariff_limit := by
  simp only [miningBranch]
  cases (autopilotDecision inp.now inp.smart_mode_min_profitability inp.smart_mode
      inp.power_tariff tl st.benchmarkStart st.rollingProfit
      (profitCalc inp.power_tariff inp.bitcoinRate15m agg.mining agg.powerUsage
        (if agg.hashrate = 0 then 0 else d.profitability)).profitPct
      st.lastSync agg.hashrate).setTariffLimit with
  | some t => rfl
  | none =>
    split_ifs <;>
      simp [applyMeters_tariff_limit, applyProfitStores_tariff_limit]

theorem dualStopFired_eq (inp : TickInput) (st : DeviceState) (d : RigDetails)
    (hdet : inp.details = some d) (hman : isManaged d.typ = true)
    (hdev : (d.devices.isSome || d.hasV4Rigs) = true)
    (hmin : (aggregate inp.algoTable d).mining ≠ 0) :
    dualStopFired inp st
      = decide ((0 < st.lastSync ∧ (aggregate inp.algoTable d).hashrate ≠ 0)
        ∧ ((0 < (if st.benchmarkStart = 0 then inp.now else st.benchmarkStart)
            ∧ smartMagicNumber * 60000
              < inp.now - (if st.benchmarkStart = 0 then inp.now else st.benchmarkStart))
          ∧ updateRollingProfit st.benchmarkStart st.rollingProfit
              (profitCalc inp.power_tariff inp.bitcoinRate15m
                (aggregate inp.algoTable d).mining (aggregate inp.algoTable d).powerUsage
                (if (aggregate inp.algoTable d).hashrate = 0 then 0
                  else d.profitability)).profitPct < inp.smart_mode_min_profitability
          ∧ (profitCalc inp.power_tariff inp.bitcoinRate15m
              (aggregate inp.algoTable d).mining (aggregate inp.algoTable d).powerUsage
              (if (aggregate inp.algoTable d).hashrate = 0 then 0
                else d.profitability)).profitPct < inp.smart_mode_min_profitability)) := by
  simp only [dualStopFired, hdet]
  rw [if_pos hman, if_pos hdev, if_neg hmin]
  by_cases hg : 0 < st.lastSync ∧ (aggregate inp.algoTable d).hashrate ≠ 0
  · rw [if_pos hg]
    simp [hg]
  · rw [if_neg hg]
    simp [hg]

theorem matchSetTl_cases (A B D R : Prop) [Decidable A] [Decidable B] [Decidable D]
    [Decidable R] (tariff old : ℚ) :
    (decide (A ∧ B ∧ D) = true →
      (match (if A ∧ B ∧ (D ∨ R) then some tariff else none) with
        | some t => t
        | none => old) = tariff)
    ∧ (decide (A ∧ B ∧ D) = false →
      ((match (if A ∧ B ∧ (D ∨ R) then some tariff else none) with
          | some t => t
          | none => old) = old
        ∨ ((match (if A ∧ B ∧ (D ∨ R) then some tariff else none) with
            | some t => t
            | none => old) = tariff ∧ R))) := by
  by_cases hA : A <;> by_cases hB : B <;> by_cases hD : D <;> by_cases hR : R <;>
    simp [hA, hB, hD, hR]

theorem syncRigDetails_tariff_cases (inp : TickInput) (st : DeviceState) (store : Store) :
    (dualStopFired inp st = true →
      (syncRigDetails inp st store).store.tariff_limit = inp.power_tariff)
    ∧ (dualStopFired inp st = false →
      ((syncRigDetails inp st store).store.tariff_limit = store.tariff_limit
        ∨ ((syncRigDetails inp st store).store.tariff_limit = inp.power_tariff
          ∧ readTariffLimit store < inp.power_tariff))) := by
  cases hdet : inp.details with
  | none =>
    refine ⟨fun h => absurd h ?_, fun _ => Or.inl ?_⟩
    · simp [dualStopFired, hdet]
    · simp [syncRigDetails, hdet]
  | some d =>
    by_cases hman : isManaged d.typ = true
    case neg =>
      have hman' : isManaged d.typ = false := by
        revert hman; cases isManaged d.typ <;> simp
      refine ⟨fun h => absurd h ?_, fun _ => Or.inl ?_⟩
      · simp [dualStopFired, hdet, hman']
      · simp [syncRigDetails, hdet, hman']
    case pos =>
      by_cases hdev : (d.devices.isSome || d.hasV4Rigs) = true
      case neg =>
        have hdev' : (d.devices.isSome || d.hasV4Rigs) = false := by
          revert hdev; cases (d.devices.isSome || d.hasV4Rigs) <;> simp
        refine ⟨fun h => absurd h ?_, fun _ => Or.inl ?_⟩
        · simp [dualStopFired, hdet, hman, hdev']
        · simp [syncRigDetails, hdet, hman, hdev']
      case pos =>
        by_cases hidle : (aggregate inp.algoTable d).mining = 0
        · refine ⟨fun h => absurd h ?_, fun _ => Or.inl ?_⟩
          · simp [dualStopFired, hdet, hman, hdev, hidle]
          · rw [syncRigDetails_eq_idle inp st store d hdet hman hdev hidle,
              idleBranch_tariff_limit]
        · rw [syncRigDetails_eq_mining inp st store d hdet hman hdev hidle,
            miningBranch_tariff_limit, dualStopFired_eq inp st d hdet hman hdev hidle,
            autopilotDecision_setTariffLimit]
          exact matchSetTl_cases _ _ _ _ inp.power_tariff store.tariff_limit

/-- C5: across a tick the stored tariff limit is assigned the current tariff
exactly when the dual stop condition fires (even then possibly a lower value
than before), and on every other tick the effective limit never decreases:
it is either left untouched or raised to a current tariff that is strictly
above it.  (Tariffs are nonnegative and a stored limit is either unlearned,
read as −1, or positive.) -/
theorem C5_tariff_limit_monotone (inp : TickInput) (st : DeviceState) (store : Store)
    (htar : 0 ≤ inp.power_tariff)
    (hold : readTariffLimit store = -1 ∨ 0 < readTariffLimit store) :
    (dualStopFired inp st = true →
      (syncRigDetails inp st store).store.tariff_limit = inp.power_tariff)
    ∧ (dualStopFired inp st = false →
      readTariffLimit store ≤ readTariffLimit (syncRigDetails inp st store).store
      ∧ ((syncRigDetails inp st store).store.tariff_limit = store.tariff_limit
        ∨ ((syncRigDetails inp st store).store.tariff_limit = inp.power_tariff
          ∧ readTariffLimit store < inp.power_tariff))) := by
  obtain ⟨h1, h2⟩ := syncRigDetails_tariff_cases inp st store
  refine ⟨h1, fun hf => ?_⟩
  have h3 := h2 hf
  refine ⟨?_, h3⟩
  rcases h3 with heq | ⟨heq, hlt⟩
  · have heff : readTariffLimit (syncRigDetails inp st store).store = readTariffLimit store := by
      unfold readTariffLimit
      rw [heq]
    rw [heff]
  · unfold readTariffLimit at hold hlt ⊢
    rw [heq]
    by_cases hz : inp.power_tariff = 0
    · rw [if_pos hz]
      rw [hz] at hlt
      rcases hold with h | h
      · rw [h]
      · exfalso
        linarith
    · rw [if_neg hz]
      exact le_of_lt hlt

/-- Concrete instance of C5: a failed-fetch tick fires no stop decision and
leaves the effective tariff limit unchanged. -/
theorem C5_tariff_limit_monotone_witness :
    dualStopFired c5Inp c5St = false
    ∧ readTariffLimit zeroStore ≤ readTariffLimit (syncRigDetails c5Inp c5St zeroStore).store :=
  ⟨rfl, ((C5_tariff_limit_monotone c5Inp c5St zeroStore (by norm_num [c5Inp])
    (Or.inl (by norm_num [readTariffLimit, zeroStore]))).2 rfl).1⟩

/-! ## C7 — device contribution rules -/

theorem addSpeed_mining (a : Agg) (s : Speed) : (addSpeed a s).mining = a.mining := by
  simp only [addSpeed]
  split_ifs <;> rfl

theorem foldl_addSpeed_mining (ss : List Speed) (a : Agg) :
    (ss.foldl addSpeed a).mining = a.mining := by
  induction ss generalizing a with
  | nil => rfl
  | cons s rest ih => rw [List.foldl_cons, ih, addSpeed_mining]

theorem legacyStep_mining (a : Agg) (d : LegacyDevice) :
    (legacyStep a d).mining
      = a.mining + (if d.statusEnumName = "MINING" then 1 else 0) := by
  simp only [legacyStep]
  by_cases hdis : d.statusEnumName = "DISABLED" ∨ d.statusEnumName = "OFFLINE"
  · rw [if_pos hdis]
    rcases hdis with h | h <;> simp [h]
  · rw [if_neg hdis]
    by_cases hm : d.statusEnumName = "MINING"
    · rw [if_neg (not_not_intro hm), foldl_addSpeed_mining]
      simp [hm]
    · rw [if_pos hm]
      simp [hm]

theorem foldl_legacyStep_mining (ds : List LegacyDevice) (a : Agg) :
    (ds.foldl legacyStep a).mining = a.mining + countLegacyMining ds := by
  induction ds generalizing a with
  | nil => simp [countLegacyMining]
  | cons x rest ih =>
    rw [List.foldl_cons, ih, legacyStep_mining]
    simp only [countLegacyMining, List.countP_cons] at ih ⊢
    by_cases hx : x.statusEnumName = "MINING" <;> simp [hx] <;> omega

theorem v4AlgoStep_mining (table : ℕ → Option String) (a : Agg) (s : V4AlgoSpeed) :
    (v4AlgoStep table a s).mining
      = a.mining + (if 0 < s.speed / 1000000 then 1 else 0) := by
  simp only [v4AlgoStep]
  cases htab : table s.algorithm <;> simp only [htab] <;> split_ifs <;> rfl

theorem foldl_v4AlgoStep_mining (table : ℕ → Option String) (ss : List V4AlgoSpeed)
    (a : Agg) :
    (ss.foldl (v4AlgoStep table) a).mining
      = a.mining + ss.countP fun s => decide (0 < s.speed / 1000000) := by
  induction ss generalizing a with
  | nil => simp
  | cons s rest ih =>
    rw [List.foldl_cons, ih, v4AlgoStep_mining, List.countP_cons]
    by_cases hs : 0 < s.speed / 1000000 <;> simp [hs] <;> omega

theorem v4OdvStep_mining (a : Agg) (kp : V4KeyPair) :
    (v4OdvStep a kp).mining = a.mining := by
  simp only [v4OdvStep]
  split_ifs <;> rfl

theorem foldl_v4OdvStep_mining (kps : List V4KeyPair) (a : Agg) :
    (kps.foldl v4OdvStep a).mining = a.mining := by
  induction kps generalizing a with
  | nil => rfl
  | cons kp rest ih => rw [List.foldl_cons, ih, v4OdvStep_mining]

theorem v4Step_mining (table : ℕ → Option String) (a : Agg) (d : V4Device) :
    (v4Step table a d).mining
      = a.mining + (match d.algorithmsSpeed with
          | some ss => ss.countP fun s => decide (0 < s.speed / 1000000)
          | none => 0) := by
  simp only [v4Step]
  cases halg : d.algorithmsSpeed with
  | none => simp [foldl_v4OdvStep_mining]
  | some ss => simp [foldl_v4OdvStep_mining, foldl_v4AlgoStep_mining]

theorem foldl_v4Step_mining (table : ℕ → Option String) (vs : List V4Device) (a : Agg) :
    (vs.foldl (v4Step table) a).mining = a.mining + countV4Positive vs := by
  induction vs generalizing a with
  | nil => simp [countV4Positive]
  | cons v rest ih =>
    rw [List.foldl_cons, ih, v4Step_mining]
    simp only [countV4Positive, List.map_cons, List.sum_cons] at ih ⊢
    omega

theorem aggregate_mining (table : ℕ → Option String) (d : RigDetails) :
    (aggregate table d).mining
      = countLegacyMining (d.devices.getD [])
        + (if d.hasV4Rigs then countV4Positive (d.v4devices.getD []) else 0) := by
  simp only [aggregate]
  cases hdev : d.devices <;> cases hv4 : d.v4devices <;> by_cases hr : d.hasV4Rigs <;>
    simp [hdev, hv4, hr, foldl_legacyStep_mining, foldl_v4Step_mining,
      countLegacyMining, countV4Positive]

/-- C7 counterexample: a legacy device with status `MINING` and no speed
entries is counted as a mining device while producing zero hashrate, and one
v4 device with two positive algorithm speeds is counted twice — refuting both
"counted only if actively producing a positive hashrate" and "each device
counted at most once". -/
theorem C7_counterexample :
    (aggregate noTable c7DetLegacy).mining = 1
    ∧ (aggregate noTable c7DetLegacy).hashrate = 0
    ∧ (aggregate noTable c7DetV4).mining = 2
    ∧ c7DetV4.v4devices = some [c7V4Dev] := by
  refine ⟨?_, ?_, ?_, rfl⟩ <;>
    norm_num +decide [aggregate, legacyStep, v4Step, v4AlgoStep, v4OdvStep,
      c7DetLegacy, c7DetV4, c7V4Dev, c2cDev, noTable]

/-- C7 amended: legacy devices with status `DISABLED` or `OFFLINE` contribute
nothing at all to the aggregates; the mining-device count equals the number
of legacy devices whose status is `MINING` (regardless of their hashrate)
plus — when the payload has v4 rigs — one count per v4 algorithm-speed entry
with positive normalized rate, so a v4 device can be counted several
times. -/
theorem C7_contributions :
    (∀ (a : Agg) (dev : LegacyDevice),
      dev.statusEnumName = "DISABLED" ∨ dev.statusEnumName = "OFFLINE" →
      legacyStep a dev = a)
    ∧ ∀ (table : ℕ → Option String) (d : RigDetails),
        (aggregate table d).mining
          = countLegacyMining (d.devices.getD [])
            + (if d.hasV4Rigs then countV4Positive (d.v4devices.getD []) else 0) := by
  refine ⟨?_, aggregate_mining⟩
  intro a dev h
  unfold legacyStep
  rw [if_pos h]

/-- Concrete instance of C7 amended: a disabled device leaves the aggregates
exactly as they were. -/
theorem C7_contributions_witness : legacyStep c7Agg c7Disabled = c7Agg :=
  C7_contributions.1 c7Agg c7Disabled (Or.inl rfl)
